import Mathlib

/-!
Verification of the `helix` Go client (query/response marshaling layer).

The development shallowly embeds the code of `helix.go`:

* JSON documents are modelled by the inductive `Helix.JVal`; Go's
  `encoding/json` syntactic validity (`json.Valid`) and decoding
  (`json.Unmarshal`) are modelled by an executable recursive-descent
  parser (`Helix.parseDoc`) plus a shape-matching decode
  (`Helix.unmarshalVal`).
* Go `error` values produced by the package are the inductive
  `Helix.HError`; `Helix.HError.text` renders each error exactly the way
  the corresponding `fmt.Errorf` call site does.
* The response holder `helixResponse` is a pair of optional bytes and an
  optional error; `Query`, `Raw`, `AsMap`, `Scan`, `scanOption`,
  `validateDestPointer`, `validateDestOption` and `marshalInput` are
  direct transcriptions of the Go functions of the same names.  The HTTP
  transport is an external collaborator and enters `Query` as an explicit
  `HTTPOutcome` argument.  Destination pointers are modelled by heap
  addresses (`Helix.Heap`), and in-place JSON decoding by heap writes.
-/

namespace Helix

/-- A JSON value.  Numbers keep their source lexeme (mirroring
`json.RawMessage`-level granularity; the numeric lexeme is never
interpreted arithmetically by the client code). -/
inductive JVal where
  | null
  | boolean (b : Bool)
  | num (lexeme : String)
  | str (s : String)
  | arr (elems : List JVal)
  | obj (members : List (String × JVal))

/-- Kind description of a JSON value, as Go's `json.UnmarshalTypeError`
reports it. -/
def JVal.kindDesc : JVal → String
  | .null => "null"
  | .boolean _ => "bool"
  | .num _ => "number"
  | .str _ => "string"
  | .arr _ => "array"
  | .obj _ => "object"

/-- The Go type shape behind a scan destination pointer. -/
inductive Shape where
  | anyShape
  | strShape
  | numShape
  | boolShape
  | listShape (elem : Shape)
deriving DecidableEq, Repr

/-- The Go type name of a shape, as `%T`/`%v` would render it. -/
def Shape.typeName : Shape → String
  | .anyShape => "interface \x7b\x7d"
  | .strShape => "string"
  | .numShape => "float64"
  | .boolShape => "bool"
  | .listShape s => "[]" ++ s.typeName

/-- An error produced by Go's JSON decoder. -/
inductive JsonErr where
  | malformed
  | typeMismatch (valueKind : String) (target : Shape)
  | notAnObject (valueKind : String)
deriving DecidableEq, Repr

/-- Every `error` value the `helix` package can produce, one constructor
per `fmt.Errorf`/`json` error site in `helix.go`. -/
inductive HError where
  | marshalInputFailed (cause : HError)
  | createRequestFailed (msg : String)
  | sendRequestFailed (msg : String)
  | httpStatus (status : Nat) (body : String)
  | jsonError (cause : JsonErr)
  | noDestination
  | invalidJsonResponse (cause : JsonErr)
  | invalidArgumentType (typeName : String)
  | fieldNotFound (name : String)
  | fieldDecodeError (name : String) (cause : JsonErr)
  | notAPointer
  | nilDestination
  | invalidJSONString
  | invalidJSONBytes
  | sequenceNotAllowed
  | unsupportedShape (kindName : String)
deriving DecidableEq, Repr

/-- Rendering of a `JsonErr`, modelled after `encoding/json` messages. -/
def JsonErr.text : JsonErr → String
  | .malformed => "invalid character in JSON input"
  | .typeMismatch v sh =>
      "json: cannot unmarshal " ++ v ++ " into Go value of type " ++ sh.typeName
  | .notAnObject v =>
      "json: cannot unmarshal " ++ v ++ " into Go value of type map[string]interface \x7b\x7d"

/-- The exact error text each call site of the source produces. -/
def HError.text : HError → String
  | .marshalInputFailed e => "failed to marshal input data: " ++ e.text
  | .createRequestFailed m => "failed to create request: " ++ m
  | .sendRequestFailed m => "failed to send request: " ++ m
  | .httpStatus s b => Nat.repr s ++ ": " ++ b
  | .jsonError je => je.text
  | .noDestination => "scan destination is expected"
  | .invalidJsonResponse je => "invalid json response: " ++ je.text
  | .invalidArgumentType t =>
      "invalid scan argument type " ++ t ++
        " (expected struct pointer, map pointer, or WithDest(...))"
  | .fieldNotFound n => "field \"" ++ n ++ "\" not found"
  | .fieldDecodeError n je => "failed to scan field \"" ++ n ++ "\": " ++ je.text
  | .notAPointer => "scan destination must be a pointer"
  | .nilDestination => "scan destination cannot be nil"
  | .invalidJSONString => "provided string is not valid JSON"
  | .invalidJSONBytes => "provided byte slice is not valid JSON"
  | .sequenceNotAllowed =>
      "input data cannot be a slice or array; it must be a struct or map to produce a key-value object"
  | .unsupportedShape k =>
      "unsupported input data type: " ++ k ++ ". Input must be a struct or a map"

/-! ### JSON syntax (model of `json.Valid` / `json.Unmarshal` parsing) -/

def lbrace : Char := Char.ofNat 123

def rbrace : Char := Char.ofNat 125

def isJsonWs (c : Char) : Bool :=
  c = ' ' || c = Char.ofNat 9 || c = Char.ofNat 10 || c = Char.ofNat 13

def skipWs : List Char → List Char
  | [] => []
  | c :: cs => if isJsonWs c then skipWs cs else c :: cs

def hexVal (c : Char) : Option Nat :=
  if '0' ≤ c ∧ c ≤ '9' then some (c.toNat - '0'.toNat)
  else if 'a' ≤ c ∧ c ≤ 'f' then some (c.toNat - 'a'.toNat + 10)
  else if 'A' ≤ c ∧ c ≤ 'F' then some (c.toNat - 'A'.toNat + 10)
  else none

def parseHex4 : List Char → Option (Nat × List Char)
  | a :: b :: c :: d :: rest =>
    match hexVal a, hexVal b, hexVal c, hexVal d with
    | some x, some y, some z, some w => some (((x * 16 + y) * 16 + z) * 16 + w, rest)
    | _, _, _, _ => none
  | _ => none

/-- A simple (one-character) string escape and its decoded character. -/
def escChar (c : Char) : Option Char :=
  if c = '"' then some '"'
  else if c = '\\' then some '\\'
  else if c = '/' then some '/'
  else if c = 'b' then some (Char.ofNat 8)
  else if c = 'f' then some (Char.ofNat 12)
  else if c = 'n' then some (Char.ofNat 10)
  else if c = 'r' then some (Char.ofNat 13)
  else if c = 't' then some (Char.ofNat 9)
  else none

/-- Parse the remainder of a JSON string literal (after the opening
quote), returning the decoded characters and the rest of the input. -/
def parseStrRest (fuel : Nat) (cs : List Char) : Option (List Char × List Char) :=
  match fuel, cs with
  | 0, _ => none
  | _ + 1, [] => none
  | f + 1, c :: cs =>
    if c = '"' then some ([], cs)
    else if c = '\\' then
      match cs with
      | [] => none
      | e :: cs1 =>
        if e = 'u' then
          match parseHex4 cs1 with
          | none => none
          | some (n, cs2) =>
            match parseStrRest f cs2 with
            | none => none
            | some (acc, r) => some (Char.ofNat n :: acc, r)
        else
          match escChar e with
          | none => none
          | some d =>
            match parseStrRest f cs1 with
            | none => none
            | some (acc, r) => some (d :: acc, r)
    else if c.toNat < 32 then none
    else
      match parseStrRest f cs with
      | none => none
      | some (acc, r) => some (c :: acc, r)

def spanDigits (cs : List Char) : List Char × List Char :=
  match cs with
  | [] => ([], [])
  | c :: rest =>
    if c.isDigit then
      let (ds, r) := spanDigits rest
      (c :: ds, r)
    else ([], cs)

/-- Parse the optional fraction part of a JSON number. -/
def parseFracPart (cs : List Char) : Option (String × List Char) :=
  match cs with
  | '.' :: r =>
    match spanDigits r with
    | ([], _) => none
    | (ds, r1) => some ("." ++ String.mk ds, r1)
  | _ => some ("", cs)

/-- Parse the optional exponent part of a JSON number. -/
def parseExpPart (cs : List Char) : Option (String × List Char) :=
  match cs with
  | c :: r =>
    if c = 'e' || c = 'E' then
      let (sg, r1) :=
        match r with
        | '+' :: r2 => ("+", r2)
        | '-' :: r2 => ("-", r2)
        | _ => ("", r)
      match spanDigits r1 with
      | ([], _) => none
      | (ds, r2) => some (String.mk [c] ++ sg ++ String.mk ds, r2)
    else some ("", cs)
  | [] => some ("", cs)

/-- Parse a JSON number, returning its lexeme. -/
def parseNumber (cs : List Char) : Option (String × List Char) :=
  let (sign, cs1) :=
    match cs with
    | '-' :: r => ("-", r)
    | _ => ("", cs)
  match cs1 with
  | [] => none
  | c :: rest =>
    let intPart : Option (String × List Char) :=
      if c = '0' then some ("0", rest)
      else if c.isDigit then
        let (ds, r) := spanDigits rest
        some (String.mk (c :: ds), r)
      else none
    match intPart with
    | none => none
    | some (ip, cs2) =>
      match parseFracPart cs2 with
      | none => none
      | some (fp, cs3) =>
        match parseExpPart cs3 with
        | none => none
        | some (ep, cs4) => some (sign ++ ip ++ fp ++ ep, cs4)

/-- Result channel of the recursive-descent JSON parser. -/
inductive PRes where
  | one (v : JVal)
  | members (kvs : List (String × JVal))
  | elems (vs : List JVal)

/-- Mode of the recursive-descent JSON parser. -/
inductive PMode where
  | topVal
  | objMembers
  | arrElems

def stripLit (lit : List Char) (cs : List Char) : Option (List Char) :=
  match lit, cs with
  | [], _ => some cs
  | l :: ls, c :: rest => if c = l then stripLit ls rest else none
  | _ :: _, [] => none

/-- One fuel-indexed step of the JSON grammar: values, non-empty object
member lists, non-empty array element lists. -/
def parseCore (fuel : Nat) (mode : PMode) (cs : List Char) : Option (PRes × List Char) :=
  match fuel with
  | 0 => none
  | f + 1 =>
    match mode with
    | .topVal =>
      let cs := skipWs cs
      match cs with
      | [] => none
      | c :: rest =>
        if c = 'n' then
          match stripLit ['u', 'l', 'l'] rest with
          | some r => some (.one .null, r)
          | none => none
        else if c = 't' then
          match stripLit ['r', 'u', 'e'] rest with
          | some r => some (.one (.boolean true), r)
          | none => none
        else if c = 'f' then
          match stripLit ['a', 'l', 's', 'e'] rest with
          | some r => some (.one (.boolean false), r)
          | none => none
        else if c = '"' then
          match parseStrRest (rest.length + 1) rest with
          | some (chars, r) => some (.one (.str (String.mk chars)), r)
          | none => none
        else if c = lbrace then
          let cs1 := skipWs rest
          match cs1 with
          | [] => none
          | d :: cs2 =>
            if d = rbrace then some (.one (.obj []), cs2)
            else
              match parseCore f .objMembers cs1 with
              | some (.members kvs, r) => some (.one (.obj kvs), r)
              | _ => none
        else if c = '[' then
          let cs1 := skipWs rest
          match cs1 with
          | [] => none
          | d :: cs2 =>
            if d = ']' then some (.one (.arr []), cs2)
            else
              match parseCore f .arrElems cs1 with
              | some (.elems vs, r) => some (.one (.arr vs), r)
              | _ => none
        else
          match parseNumber (c :: rest) with
          | some (lex, r) => some (.one (.num lex), r)
          | none => none
    | .objMembers =>
      let cs := skipWs cs
      match cs with
      | '"' :: rest =>
        match parseStrRest (rest.length + 1) rest with
        | none => none
        | some (keyChars, cs1) =>
          match skipWs cs1 with
          | ':' :: cs2 =>
            match parseCore f .topVal cs2 with
            | some (.one v, cs3) =>
              (match skipWs cs3 with
               | ',' :: cs4 =>
                 match parseCore f .objMembers cs4 with
                 | some (.members kvs, cs5) =>
                     some (.members ((String.mk keyChars, v) :: kvs), cs5)
                 | _ => none
               | d :: cs4 =>
                 if d = rbrace then some (.members [(String.mk keyChars, v)], cs4)
                 else none
               | [] => none)
            | _ => none
          | _ => none
      | _ => none
    | .arrElems =>
      match parseCore f .topVal cs with
      | some (.one v, cs1) =>
        (match skipWs cs1 with
         | ',' :: cs2 =>
           match parseCore f .arrElems cs2 with
           | some (.elems vs, cs3) => some (.elems (v :: vs), cs3)
           | _ => none
         | ']' :: cs2 => some (.elems [v], cs2)
         | _ => none)
      | _ => none

/-- Parse a complete JSON document (model of `json.Unmarshal`'s parse and
of `json.Valid` when the result is only tested for success). -/
def parseDoc (s : String) : Option JVal :=
  let cs := s.data
  match parseCore (2 * cs.length + 2) .topVal cs with
  | some (.one v, rest) => if skipWs rest = [] then some v else none
  | _ => none

/-- Model of `json.Valid`. -/
def jsonValid (s : String) : Bool :=
  (parseDoc s).isSome

/-! ### JSON rendering (model of `json.Marshal` on already-structured data) -/

/-- Render a string literal with the two mandatory escapes. -/
def renderString (chars : List Char) : String :=
  "\"" ++ String.mk (chars.flatMap fun c =>
    if c = '"' then ['\\', '"'] else if c = '\\' then ['\\', '\\'] else [c]) ++ "\""

mutual

/-- Render a JSON value back to text (model of `json.Marshal` for the
struct/map branch of `marshalInput`). -/
def renderJVal : JVal → String
  | .null => "null"
  | .boolean true => "true"
  | .boolean false => "false"
  | .num lex => lex
  | .str s => renderString s.data
  | .arr vs => "[" ++ renderElems vs ++ "]"
  | .obj kvs => "\x7b" ++ renderMembers kvs ++ "\x7d"

def renderElems : List JVal → String
  | [] => ""
  | [v] => renderJVal v
  | v :: vs => renderJVal v ++ "," ++ renderElems vs

def renderMembers : List (String × JVal) → String
  | [] => ""
  | [kv] => renderString kv.1.data ++ ":" ++ renderJVal kv.2
  | kv :: kvs => renderString kv.1.data ++ ":" ++ renderJVal kv.2 ++ "," ++ renderMembers kvs

end

/-! ### Input classification and encoding (`marshalInput`) -/

/-- A Go value supplied as the `data` query option, classified the way
`marshalInput`'s type switch and `reflect` inspection observe it. -/
inductive InputVal where
  | goNil
  | strV (s : String)
  | bytesV (s : String)
  | ptrV (pointee : InputVal)
  | nilPtrV
  | structV (fields : List (String × JVal))
  | mapV (kvs : List (String × JVal))
  | sliceV (elems : List JVal)
  | arrayV (elems : List JVal)
  | scalarV (kindName : String)

/-- `reflect.Kind` name of an input value (after any dereference), as
`%s` renders it in the `unsupported input data type` message. -/
def InputVal.kindName : InputVal → String
  | .goNil => "invalid"
  | .strV _ => "string"
  | .bytesV _ => "slice"
  | .ptrV _ => "ptr"
  | .nilPtrV => "invalid"
  | .structV _ => "struct"
  | .mapV _ => "map"
  | .sliceV _ => "slice"
  | .arrayV _ => "array"
  | .scalarV k => k

/-- The single `val.Elem()` dereference `marshalInput` applies when the
reflected kind is `Ptr` (a nil pointer dereferences to the invalid
value). -/
def derefOnce : InputVal → InputVal
  | .ptrV inner => inner
  | v => v

/-- Transcription of `marshalInput` (helix.go): nil becomes the empty
object literal; strings and byte slices must already be valid JSON and
pass through verbatim; otherwise one pointer dereference is applied and
structs/maps are JSON-encoded, slices/arrays are rejected, and all other
kinds are unsupported.  (A dereferenced `[]byte` reaches the reflect
section with kind `slice`, since the type switch matches `[]byte` only
at the top level.) -/
def marshalInput (input : InputVal) : Except HError String :=
  match input with
  | .goNil => .ok "\x7b\x7d"
  | .strV s => if jsonValid s then .ok s else .error .invalidJSONString
  | .bytesV s => if jsonValid s then .ok s else .error .invalidJSONBytes
  | v =>
    match derefOnce v with
    | .structV fields => .ok (renderJVal (.obj fields))
    | .mapV kvs => .ok (renderJVal (.obj kvs))
    | .sliceV _ => .error .sequenceNotAllowed
    | .arrayV _ => .error .sequenceNotAllowed
    | .bytesV _ => .error .sequenceNotAllowed
    | w => .error (.unsupportedShape w.kindName)

/-! ### Query invocation and the response holder -/

/-- The option record mutated by `QueryOptionFunc`s; the zero value of a
Go `any` field is nil. -/
structure QueryOption where
  data : InputVal
  datatype : InputVal

/-- `WithData` sets the data slot of the option record. -/
def WithData (d : InputVal) : QueryOption → QueryOption :=
  fun o => { o with data := d }

/-- `WithTarget` sets the (inert) datatype slot of the option record. -/
def WithTarget (t : InputVal) : QueryOption → QueryOption :=
  fun o => { o with datatype := t }

/-- The option-folding loop at the top of `Query`. -/
def applyOpts (opts : List (QueryOption → QueryOption)) : QueryOption :=
  opts.foldl (fun o f => f o) ⟨.goNil, .goNil⟩

/-- Outcome of the external HTTP collaborator: request construction
failure, transport failure, or a status code with a fully-read body. -/
inductive HTTPOutcome where
  | buildFail (msg : String)
  | sendFail (msg : String)
  | response (status : Nat) (body : String)

/-- The response holder: raw bytes (`none` models a nil `[]byte`) and an
optional error. -/
structure helixResponse where
  bytes : Option String
  err : Option HError
deriving DecidableEq, Repr

/-- Transcription of `Query` (helix.go): fold the options, marshal the
data input, then branch on the transport outcome; non-2xx statuses
become a `"<status>: <body>"` error with nil bytes. -/
def Query (opts : List (QueryOption → QueryOption)) (oc : HTTPOutcome) : helixResponse :=
  match marshalInput (applyOpts opts).data with
  | .error e => { bytes := none, err := some (.marshalInputFailed e) }
  | .ok _ =>
    match oc with
    | .buildFail m => { bytes := none, err := some (.createRequestFailed m) }
    | .sendFail m => { bytes := none, err := some (.sendRequestFailed m) }
    | .response status body =>
      if status < 200 ∨ 300 ≤ status then
        { bytes := none, err := some (.httpStatus status body) }
      else
        { bytes := some body, err := none }

/-- Transcription of `Raw`: return the stored pair unchanged. -/
def Raw (r : helixResponse) : Option String × Option HError :=
  (r.bytes, r.err)

/-- Transcription of `AsMap`: propagate a stored error, otherwise decode
the bytes as a JSON object into an untyped string-keyed map (a nil
`[]byte` unmarshals like empty input; a JSON `null` yields a nil map and
no error; any other non-object is a type error returned unwrapped). -/
def AsMap (r : helixResponse) : Option (List (String × JVal)) × Option HError :=
  match r.err with
  | some e => (none, some e)
  | none =>
    match parseDoc (r.bytes.getD "") with
    | none => (none, some (.jsonError .malformed))
    | some .null => (none, none)
    | some (.obj kvs) => (some kvs, none)
    | some v => (none, some (.jsonError (.notAnObject v.kindDesc)))

example : marshalInput .goNil = .ok "\x7b\x7d" := rfl
example : marshalInput (.strV "[1,2]") = .ok "[1,2]" := rfl
example : marshalInput (.strV "nope") = .error .invalidJSONString := rfl
example : marshalInput (.ptrV (.sliceV [])) = .error .sequenceNotAllowed := rfl
example : marshalInput (.ptrV (.strV "x")) = .error (.unsupportedShape "string") := rfl
example : marshalInput (.structV [("a", .num "1")]) = .ok "\x7b\"a\":1\x7d" := rfl
example : Query [] (.response 404 "not found")
    = { bytes := none, err := some (.httpStatus 404 "not found") } := rfl
example : Query [] (.response 200 "ok") = { bytes := some "ok", err := none } := rfl
example : (HError.httpStatus 404 "not found").text = "404: not found" := rfl

/-! ### Scan destinations, validation, and decoding -/

/-- Caller memory: the contents of each pointer destination.  In-place
JSON decoding mutates the heap at the destination's address. -/
def Heap : Type := Nat → Option JVal

def emptyHeap : Heap := fun _ => none

def writeHeap (h : Heap) (a : Nat) (v : JVal) : Heap :=
  fun x => if x = a then some v else h x

/-- A Go `any` value passed to `Scan` or stored inside a descriptor, as
the reflection checks and the `ScanOptionFunc` type assertion observe
it: a non-nil pointer (address plus pointee type shape), a nil pointer,
a `WithDest`-built descriptor closure, or any other value (carrying its
`%T` type name). -/
inductive GoVal where
  | ptr (addr : Nat) (shape : Shape)
  | nilPtr (shape : Shape)
  | withDest (name : String) (dest : GoVal)
  | other (typeName : String)
deriving DecidableEq, Repr

/-- `%T` rendering of a scan argument. -/
def GoVal.typeNameOf : GoVal → String
  | .ptr _ sh => "*" ++ sh.typeName
  | .nilPtr sh => "*" ++ sh.typeName
  | .withDest _ _ => "helix.ScanOptionFunc"
  | .other t => t

/-- Pointee shape of a (validated) pointer destination. -/
def GoVal.shapeOf : GoVal → Shape
  | .ptr _ sh => sh
  | .nilPtr sh => sh
  | _ => .anyShape

/-- Address of a (validated) pointer destination. -/
def GoVal.addrOf : GoVal → Nat
  | .ptr a _ => a
  | _ => 0

/-- Transcription of `validateDestPointer`: the reflected kind must be
`Ptr` and the pointer non-nil. -/
def validateDestPointer : GoVal → Option HError
  | .ptr _ _ => none
  | .nilPtr _ => some .nilDestination
  | .withDest _ _ => some .notAPointer
  | .other _ => some .notAPointer

/-- The record a `ScanOptionFunc` fills in (field order as in the
source). -/
structure ScanOption where
  dest : GoVal
  name : String
deriving DecidableEq, Repr

/-- `WithDest` builds a field-destination descriptor closure. -/
def WithDest (name : String) (dest : GoVal) : GoVal :=
  .withDest name dest

/-- The `arg.(ScanOptionFunc)` type assertion, applied to the zero
`ScanOption` (a `WithDest` closure sets both fields). -/
def asScanOptFunc : GoVal → Option ScanOption
  | .withDest n d => some { dest := d, name := n }
  | _ => none

/-- Transcription of `validateDestOption`: assert the argument is a
`ScanOptionFunc`, otherwise fail with the invalid-argument-type error. -/
def validateDestOption (dest : GoVal) : Except HError ScanOption :=
  match asScanOptFunc dest with
  | some o => .ok o
  | none => .error (.invalidArgumentType dest.typeNameOf)

/-- Whether a JSON value decodes into a destination of the given shape
(model of `json.Unmarshal`'s shape check; `null` decodes into
anything). -/
def shapeAccepts : Shape → JVal → Bool
  | _, .null => true
  | .anyShape, _ => true
  | .strShape, .str _ => true
  | .numShape, .num _ => true
  | .boolShape, .boolean _ => true
  | .listShape s, .arr xs => xs.all fun x => shapeAccepts s x
  | _, _ => false

/-- Decode one JSON value into a destination of the given shape: `null`
succeeds without writing, a matching value is written, anything else is
a type error. -/
def unmarshalVal (v : JVal) (sh : Shape) : Except JsonErr (Option JVal) :=
  match v with
  | .null => .ok none
  | _ => if shapeAccepts sh v then .ok (some v) else .error (.typeMismatch v.kindDesc sh)

/-- Lookup in the map built from a JSON object's members (Go map
construction lets a later duplicate key overwrite an earlier one). -/
def lookupField (kvs : List (String × JVal)) (name : String) : Option JVal :=
  kvs.foldl (fun acc kv => if kv.1 = name then some kv.2 else acc) none

/-- `json.Unmarshal` of the response bytes into
`map[string]json.RawMessage`: the document must parse, and must be an
object (`null` produces a nil map). -/
def unmarshalRawMap (bytesIn : String) : Except JsonErr (List (String × JVal)) :=
  match parseDoc bytesIn with
  | none => .error .malformed
  | some .null => .ok []
  | some (.obj kvs) => .ok kvs
  | some v => .error (.notAnObject v.kindDesc)

/-- Transcription of `scanOption`: validate the descriptor's destination
pointer, look the field name up in the raw-keyed map (absent names fail
with the field-not-found error), then decode the raw value into the
destination (a shape mismatch is wrapped as the field-decode error). -/
def scanOption (o : ScanOption) (jsonData : List (String × JVal)) (heap : Heap) :
    Option HError × Heap :=
  match validateDestPointer o.dest with
  | some e => (some e, heap)
  | none =>
    match lookupField jsonData o.name with
    | none => (some (.fieldNotFound o.name), heap)
    | some rawData =>
      match unmarshalVal rawData o.dest.shapeOf with
      | .error je => (some (.fieldDecodeError o.name je), heap)
      | .ok none => (none, heap)
      | .ok (some w) => (none, writeHeap heap o.dest.addrOf w)

/-- The `for _, arg := range args` loop of the multi-target `Scan` path:
each argument must assert to `ScanOptionFunc`, and the first failing
`scanOption` aborts the loop. -/
def scanLoop (args : List GoVal) (jsonData : List (String × JVal)) (heap : Heap) :
    Option HError × Heap :=
  match args with
  | [] => (none, heap)
  | arg :: rest =>
    match asScanOptFunc arg with
    | none => (some (.invalidArgumentType arg.typeNameOf), heap)
    | some o =>
      match scanOption o jsonData heap with
      | (none, h1) => scanLoop rest jsonData h1
      | (some e, h1) => (some e, h1)

/-- Transcription of `Scan`: propagate a stored holder error first; zero
arguments fail with the no-destination error; a single argument is tried
as a bare pointer (whole-body decode, json error returned unwrapped) and
then as a descriptor (body decoded into the raw-keyed map, wrapped
invalid-json error); with two or more arguments the body is decoded into
the raw-keyed map once and the descriptor loop runs. -/
def Scan (r : helixResponse) (args : List GoVal) (heap : Heap) : Option HError × Heap :=
  match r.err with
  | some e => (some e, heap)
  | none =>
    match args with
    | [] => (some .noDestination, heap)
    | [a] =>
      match validateDestPointer a with
      | some _ =>
        match validateDestOption a with
        | .error e => (some e, heap)
        | .ok o =>
          match unmarshalRawMap (r.bytes.getD "") with
          | .error je => (some (.invalidJsonResponse je), heap)
          | .ok jsonData => scanOption o jsonData heap
      | none =>
        match parseDoc (r.bytes.getD "") with
        | none => (some (.jsonError .malformed), heap)
        | some v =>
          match unmarshalVal v a.shapeOf with
          | .error je => (some (.jsonError je), heap)
          | .ok none => (none, heap)
          | .ok (some w) => (none, writeHeap heap a.addrOf w)
    | _ :: _ :: _ =>
      match unmarshalRawMap (r.bytes.getD "") with
      | .error je => (some (.invalidJsonResponse je), heap)
      | .ok jsonData => scanLoop args jsonData heap

example :
    (Scan { bytes := none, err := some (.sendRequestFailed "boom") } [] emptyHeap).1
      = some (.sendRequestFailed "boom") := rfl
example :
    (Scan { bytes := some "\x7b\x7d", err := none } [] emptyHeap).1
      = some .noDestination := rfl
example :
    (Scan { bytes := some "\x7b\x7d", err := none } [.other "int"] emptyHeap).1
      = some (.invalidArgumentType "int") := rfl
example :
    (Scan { bytes := some "\x7b\"a\":1\x7d", err := none }
      [WithDest "a" (.ptr 1 .numShape), WithDest "b" (.ptr 2 .strShape)] emptyHeap).1
      = some (.fieldNotFound "b") := rfl
example :
    (Scan { bytes := some "\x7b\"a\":1,\"b\":\"x\"\x7d", err := none }
      [WithDest "a" (.ptr 1 .numShape), WithDest "b" (.ptr 2 .strShape)] emptyHeap).1
      = none := rfl
example :
    (Scan { bytes := some "\x7b\"a\":1,\"b\":\"x\"\x7d", err := none }
      [WithDest "a" (.ptr 1 .numShape), WithDest "b" (.ptr 2 .strShape)] emptyHeap).2 1
      = some (.num "1") := rfl
example :
    (Scan { bytes := some "\x7b\"a\":1\x7d", err := none }
      [WithDest "a" (.ptr 1 .strShape), WithDest "a" (.ptr 2 .numShape)] emptyHeap).1
      = some (.fieldDecodeError "a" (.typeMismatch "number" .strShape)) := rfl

example : parseDoc "null" = some .null := rfl
example : parseDoc " \x7b \"a\" : 1 \x7d " = some (.obj [("a", .num "1")]) := rfl
example : parseDoc "[1,2]" = some (.arr [.num "1", .num "2"]) := rfl
example : parseDoc "\x7b\"a\":1,\"b\":\"x\"\x7d"
    = some (.obj [("a", .num "1"), ("b", .str "x")]) := rfl
example : jsonValid "[1,]" = false := rfl
example : jsonValid "01" = false := rfl
example : jsonValid "\"a\\nb\"" = true := rfl
example : jsonValid "ugh" = false := rfl

/-! ### Spec-side description of multi-target resolution

The following `spec…` definitions transcribe the specification's words
for the multi-target `Scan` contract ("look up its field name; if
absent, fail with `FieldNotFound`; otherwise decode that field's raw
JSON into its destination, failing with `FieldDecodeError` on a shape
mismatch; processing stops at the first failing descriptor; destinations
are mutated in place").  They are compared against the source-derived
`Scan` by the refinement theorems below. -/

/-- View a descriptor record as the `ScanOptionFunc` argument `WithDest`
builds from it. -/
def toArg (o : ScanOption) : GoVal :=
  .withDest o.name o.dest

/-- Spec-side resolution outcome of one descriptor against the raw-keyed
map: absent name, shape mismatch, or success. -/
def specResolveErr (kvs : List (String × JVal)) (o : ScanOption) : Option HError :=
  match lookupField kvs o.name with
  | none => some (.fieldNotFound o.name)
  | some v =>
    match unmarshalVal v o.dest.shapeOf with
    | .error je => some (.fieldDecodeError o.name je)
    | .ok _ => none

/-- Spec-side in-place write of one successfully resolving descriptor. -/
def specWriteOne (kvs : List (String × JVal)) (o : ScanOption) (heap : Heap) : Heap :=
  match lookupField kvs o.name with
  | none => heap
  | some v =>
    match unmarshalVal v o.dest.shapeOf with
    | .ok (some w) => writeHeap heap o.dest.addrOf w
    | _ => heap

/-- Spec-side sequential resolution: process descriptors in argument
order, stopping at the first failure and keeping earlier writes. -/
def specRun (kvs : List (String × JVal)) : List ScanOption → Heap → Option HError × Heap
  | [], heap => (none, heap)
  | o :: rest, heap =>
    match specResolveErr kvs o with
    | some e => (some e, heap)
    | none => specRun kvs rest (specWriteOne kvs o heap)

/-- Spec-side first failing descriptor's error (no error when every
descriptor resolves). -/
def specFirstFailure (kvs : List (String × JVal)) : List ScanOption → Option HError
  | [] => none
  | o :: rest =>
    match specResolveErr kvs o with
    | some e => some e
    | none => specFirstFailure kvs rest

/-- Spec-side accumulated writes of a list of resolving descriptors. -/
def specApplyWrites (kvs : List (String × JVal)) : List ScanOption → Heap → Heap
  | [], heap => heap
  | o :: rest, heap => specApplyWrites kvs rest (specWriteOne kvs o heap)

/-- `scanOption` on a descriptor with a valid destination pointer
behaves as the spec-side resolution of that descriptor. -/
theorem scanOption_spec (o : ScanOption) (kvs : List (String × JVal)) (heap : Heap)
    (h : validateDestPointer o.dest = none) :
    scanOption o kvs heap
      = (specResolveErr kvs o).elim (none, specWriteOne kvs o heap) (fun e => (some e, heap)) := by
  cases hl : lookupField kvs o.name with
  | none => simp [scanOption, specResolveErr, specWriteOne, h, hl]
  | some v =>
    cases hu : unmarshalVal v o.dest.shapeOf with
    | error je => simp [scanOption, specResolveErr, specWriteOne, h, hl, hu]
    | ok w => cases w <;> simp [scanOption, specResolveErr, specWriteOne, h, hl, hu]

/-- The multi-target loop over descriptor arguments with valid
destinations is the spec-side sequential resolution. -/
theorem scanLoop_spec (kvs : List (String × JVal)) :
    ∀ (opts : List ScanOption) (heap : Heap),
      (∀ o ∈ opts, validateDestPointer o.dest = none) →
      scanLoop (opts.map toArg) kvs heap = specRun kvs opts heap := by
  intro opts
  induction opts with
  | nil => intro heap _; rfl
  | cons o rest ih =>
    intro heap hval
    have ho : validateDestPointer o.dest = none := hval o (List.mem_cons_self o rest)
    have hrest : ∀ p ∈ rest, validateDestPointer p.dest = none :=
      fun p hp => hval p (List.mem_cons_of_mem o hp)
    have hso := scanOption_spec o kvs heap ho
    cases hr : specResolveErr kvs o with
    | some e =>
      rw [hr] at hso
      simp only [Option.elim] at hso
      simp only [List.map_cons, scanLoop, toArg, asScanOptFunc, hso, specRun, hr]
    | none =>
      rw [hr] at hso
      simp only [Option.elim] at hso
      simp only [List.map_cons, scanLoop, toArg, asScanOptFunc, hso, specRun, hr]
      exact ih _ hrest

/-- The error component of the spec-side sequential resolution is the
first failing descriptor's error. -/
theorem specRun_fst (kvs : List (String × JVal)) :
    ∀ (opts : List ScanOption) (heap : Heap),
      (specRun kvs opts heap).1 = specFirstFailure kvs opts := by
  intro opts
  induction opts with
  | nil => intro heap; rfl
  | cons o rest ih =>
    intro heap
    cases hr : specResolveErr kvs o with
    | some e => simp only [specRun, specFirstFailure, hr]
    | none => simp only [specRun, specFirstFailure, hr]; exact ih _

/-- Reduction of a multi-target `Scan` (ok holder, object body, all
arguments descriptors with valid destinations) to the spec-side
sequential resolution. -/
theorem scan_multi_eq_specRun (r : helixResponse) (kvs : List (String × JVal))
    (opts : List ScanOption) (heap : Heap)
    (hok : r.err = none)
    (hparse : parseDoc (r.bytes.getD "") = some (.obj kvs))
    (hlen : 2 ≤ opts.length)
    (hval : ∀ o ∈ opts, validateDestPointer o.dest = none) :
    Scan r (opts.map toArg) heap = specRun kvs opts heap := by
  have hmap : unmarshalRawMap (r.bytes.getD "") = .ok kvs := by
    unfold unmarshalRawMap
    rw [hparse]
  cases opts with
  | nil => simp at hlen
  | cons o1 t =>
    cases t with
    | nil => simp at hlen
    | cons o2 rest =>
      simp only [List.map_cons, Scan, hok, hmap]
      exact scanLoop_spec kvs (o1 :: o2 :: rest) heap hval

/-- The spec-side sequential resolution of a good prefix followed by a
failing descriptor stops at the failure, applying exactly the prefix's
writes. -/
theorem specRun_append_fail (kvs : List (String × JVal)) :
    ∀ (good : List ScanOption) (bad : ScanOption) (rest : List ScanOption)
      (heap : Heap) (e : HError),
      (∀ o ∈ good, specResolveErr kvs o = none) →
      specResolveErr kvs bad = some e →
      specRun kvs (good ++ bad :: rest) heap = (some e, specApplyWrites kvs good heap) := by
  intro good
  induction good with
  | nil =>
    intro bad rest heap e _ hbad
    simp only [List.nil_append, specRun, hbad, specApplyWrites]
  | cons o g ih =>
    intro bad rest heap e hgood hbad
    have ho : specResolveErr kvs o = none := hgood o (List.mem_cons_self o g)
    have hg : ∀ p ∈ g, specResolveErr kvs p = none :=
      fun p hp => hgood p (List.mem_cons_of_mem o hp)
    simp only [List.cons_append, specRun, ho, specApplyWrites]
    exact ih bad rest _ e hg hbad

/-- Addresses not written by any descriptor of a list keep their heap
contents across the spec-side writes. -/
theorem specApplyWrites_frame (kvs : List (String × JVal)) :
    ∀ (good : List ScanOption) (heap : Heap) (a : Nat),
      (∀ o ∈ good, o.dest.addrOf ≠ a) →
      specApplyWrites kvs good heap a = heap a := by
  intro good
  induction good with
  | nil => intro heap a _; rfl
  | cons o g ih =>
    intro heap a ha
    have ho : o.dest.addrOf ≠ a := ha o (List.mem_cons_self o g)
    have hg : ∀ p ∈ g, p.dest.addrOf ≠ a := fun p hp => ha p (List.mem_cons_of_mem o hp)
    simp only [specApplyWrites]
    rw [ih _ a hg]
    cases hl : lookupField kvs o.name with
    | none => simp [specWriteOne, hl]
    | some v =>
      cases hu : unmarshalVal v o.dest.shapeOf with
      | error je => simp [specWriteOne, hl, hu]
      | ok w =>
        cases w with
        | none => simp [specWriteOne, hl, hu]
        | some x => simp [specWriteOne, hl, hu, writeHeap, Ne.symm ho]

/-! ### Claim theorems -/

/-- Claim C1 (amended): `Scan` with zero arguments fails with the
no-destination error on every ok holder; on an errored holder the stored
error is returned instead, because the stored-error check precedes the
argument-count check. -/
theorem scan_zero_args (r : helixResponse) (heap : Heap) :
    (r.err = none → Scan r [] heap = (some .noDestination, heap))
    ∧ (∀ e, r.err = some e → Scan r [] heap = (some e, heap)) := by
  constructor
  · intro h
    simp [Scan, h]
  · intro e h
    simp [Scan, h]

/-- Witness for C1: a concrete ok holder scanned with zero arguments. -/
theorem scan_zero_args_witness :
    Scan { bytes := some "\x7b\x7d", err := none } [] emptyHeap
      = (some HError.noDestination, emptyHeap) :=
  (scan_zero_args { bytes := some "\x7b\x7d", err := none } emptyHeap).1 rfl

/-- Counterexample for C1 as stated: on an errored holder, `Scan` with
zero arguments returns the stored error, not the no-destination
error. -/
theorem scan_zero_args_errored_counterexample :
    (Scan { bytes := none, err := some (.sendRequestFailed "boom") } [] emptyHeap).1
      = some (.sendRequestFailed "boom")
    ∧ some (HError.sendRequestFailed "boom") ≠ some HError.noDestination :=
  ⟨rfl, by decide⟩

/-- Claim C2 (amended): on an ok holder, `Scan` with exactly one
argument that is neither a pointer nor a field-destination descriptor
fails with the invalid-scan-argument-type error naming the argument's
type (descriptor validation runs after pointer validation fails and its
error is the one returned), not with the not-a-pointer error. -/
theorem scan_single_invalid_arg (r : helixResponse) (heap : Heap) (t : String)
    (h : r.err = none) :
    Scan r [.other t] heap = (some (.invalidArgumentType t), heap) := by
  simp [Scan, h, validateDestPointer, validateDestOption, asScanOptFunc, GoVal.typeNameOf]

/-- Witness for C2: a concrete ok holder scanned with a single `int`
argument. -/
theorem scan_single_invalid_arg_witness :
    Scan { bytes := some "\x7b\x7d", err := none } [.other "int"] emptyHeap
      = (some (HError.invalidArgumentType "int"), emptyHeap) :=
  scan_single_invalid_arg { bytes := some "\x7b\x7d", err := none } emptyHeap "int" rfl

/-- Counterexample for C2 as stated: the error returned for a single
non-pointer, non-descriptor argument is the invalid-argument-type error,
which is not the not-a-pointer error. -/
theorem scan_single_nonpointer_counterexample :
    (Scan { bytes := some "\x7b\x7d", err := none } [.other "int"] emptyHeap).1
      = some (HError.invalidArgumentType "int")
    ∧ some (HError.invalidArgumentType "int") ≠ some HError.notAPointer :=
  ⟨rfl, by decide⟩

/-- Claim C3: on an errored holder, `AsMap` returns exactly the stored
error, `Scan` with any non-empty argument list returns exactly the
stored error, and `Raw` returns the stored pair unchanged — all
regardless of the stored bytes (no decode is attempted), and, the
operations being pure functions of the holder, every repeated call
returns the same error. -/
theorem errored_holder_short_circuit (r : helixResponse) (e : HError) (heap : Heap)
    (args : List GoVal) (h : r.err = some e) (_hargs : args ≠ []) :
    AsMap r = (none, some e)
    ∧ Scan r args heap = (some e, heap)
    ∧ Raw r = (r.bytes, some e) := by
  refine ⟨?_, ?_, ?_⟩ <;> simp [AsMap, Scan, Raw, h]

/-- Witness for C3: the three decode entry points on a concrete errored
holder. -/
theorem errored_holder_short_circuit_witness :
    AsMap { bytes := none, err := some (HError.httpStatus 404 "not found") }
      = (none, some (HError.httpStatus 404 "not found"))
    ∧ Scan { bytes := none, err := some (HError.httpStatus 404 "not found") }
        [.other "int"] emptyHeap
      = (some (HError.httpStatus 404 "not found"), emptyHeap)
    ∧ Raw { bytes := none, err := some (HError.httpStatus 404 "not found") }
      = (none, some (HError.httpStatus 404 "not found")) :=
  errored_holder_short_circuit
    { bytes := none, err := some (HError.httpStatus 404 "not found") }
    (HError.httpStatus 404 "not found") emptyHeap [.other "int"] rfl (by decide)

/-- Claim C4: a query invocation that reaches the transport and receives
a status outside [200,300) produces a holder with nil bytes whose error
renders exactly as the numeric status, a colon and a space, then the raw
body text. -/
theorem query_non2xx_error_format (opts : List (QueryOption → QueryOption))
    (s : Nat) (b j : String)
    (hm : marshalInput (applyOpts opts).data = .ok j)
    (hs : s < 200 ∨ 300 ≤ s) :
    Query opts (.response s b) = { bytes := none, err := some (.httpStatus s b) }
    ∧ (HError.httpStatus s b).text = Nat.repr s ++ ": " ++ b := by
  refine ⟨?_, rfl⟩
  have hq : Query opts (.response s b)
      = if s < 200 ∨ 300 ≤ s then
          { bytes := none, err := some (.httpStatus s b) }
        else { bytes := some b, err := none } := by
    unfold Query
    rw [hm]
  rw [hq, if_pos hs]

/-- Witness for C4: status 404 with body `not found` yields the error
text `404: not found` and no stored bytes. -/
theorem query_non2xx_error_format_witness :
    Query [] (.response 404 "not found")
      = { bytes := none, err := some (HError.httpStatus 404 "not found") }
    ∧ (HError.httpStatus 404 "not found").text = "404: not found" := by
  have h := query_non2xx_error_format [] 404 "not found" "\x7b\x7d" rfl (by decide)
  exact ⟨h.1, rfl⟩

/-- Claim C5: on an ok holder whose bytes parse as a JSON object, a
multi-target `Scan` whose arguments are all field-destination
descriptors (with valid destination pointers) returns exactly the
spec-side first-failure of resolving the descriptors in argument order:
an absent name gives the field-not-found error for that field, a shape
mismatch gives the field-decode error for that field wrapping the cause,
and if every descriptor resolves the call returns no error. -/
theorem scan_multi_field_resolution (r : helixResponse) (kvs : List (String × JVal))
    (opts : List ScanOption) (heap : Heap)
    (hok : r.err = none)
    (hparse : parseDoc (r.bytes.getD "") = some (.obj kvs))
    (hlen : 2 ≤ opts.length)
    (hval : ∀ o ∈ opts, validateDestPointer o.dest = none) :
    (Scan r (opts.map toArg) heap).1 = specFirstFailure kvs opts := by
  rw [scan_multi_eq_specRun r kvs opts heap hok hparse hlen hval, specRun_fst]

/-- Witness for C5: two descriptors against the body
`\x7b"a":1,"b":"x"\x7d`, both resolving. -/
theorem scan_multi_field_resolution_witness :
    (Scan { bytes := some "\x7b\"a\":1,\"b\":\"x\"\x7d", err := none }
        (([⟨.ptr 1 .numShape, "a"⟩, ⟨.ptr 2 .strShape, "b"⟩] : List ScanOption).map toArg)
        emptyHeap).1
      = specFirstFailure [("a", .num "1"), ("b", .str "x")]
          ([⟨.ptr 1 .numShape, "a"⟩, ⟨.ptr 2 .strShape, "b"⟩] : List ScanOption) :=
  scan_multi_field_resolution
    { bytes := some "\x7b\"a\":1,\"b\":\"x\"\x7d", err := none }
    [("a", .num "1"), ("b", .str "x")]
    [⟨.ptr 1 .numShape, "a"⟩, ⟨.ptr 2 .strShape, "b"⟩] emptyHeap
    rfl rfl (by decide) (by decide)

/-- Claim C6: a multi-target `Scan` that fails at one descriptor stops
there — the result is that descriptor's error and the final heap is
exactly the sequential writes of the preceding (resolving) descriptors,
independent of every descriptor after the failing one — and addresses
not written by the preceding descriptors are unchanged, so the values
written before the failure remain in place (no rollback). -/
theorem scan_multi_field_failfast (r : helixResponse) (kvs : List (String × JVal))
    (good : List ScanOption) (bad : ScanOption) (rest : List ScanOption)
    (heap : Heap) (e : HError)
    (hok : r.err = none)
    (hparse : parseDoc (r.bytes.getD "") = some (.obj kvs))
    (hlen : 2 ≤ (good ++ bad :: rest).length)
    (hval : ∀ o ∈ good ++ bad :: rest, validateDestPointer o.dest = none)
    (hgood : ∀ o ∈ good, specResolveErr kvs o = none)
    (hbad : specResolveErr kvs bad = some e) :
    Scan r ((good ++ bad :: rest).map toArg) heap
      = (some e, specApplyWrites kvs good heap)
    ∧ ∀ a, (∀ o ∈ good, o.dest.addrOf ≠ a) →
        (Scan r ((good ++ bad :: rest).map toArg) heap).2 a = heap a := by
  have hred := scan_multi_eq_specRun r kvs (good ++ bad :: rest) heap hok hparse hlen hval
  have happ := specRun_append_fail kvs good bad rest heap e hgood hbad
  constructor
  · rw [hred, happ]
  · intro a ha
    rw [hred, happ]
    exact specApplyWrites_frame kvs good heap a ha

/-- Witness for C6: one resolving descriptor, then a descriptor whose
field is absent, then a further descriptor that is never reached. -/
theorem scan_multi_field_failfast_witness :
    Scan { bytes := some "\x7b\"a\":1,\"b\":\"x\"\x7d", err := none }
        ((([⟨.ptr 1 .numShape, "a"⟩] ++ ⟨.ptr 2 .strShape, "missing"⟩
            :: [⟨.ptr 3 .anyShape, "b"⟩] : List ScanOption)).map toArg) emptyHeap
      = (some (HError.fieldNotFound "missing"),
          specApplyWrites [("a", .num "1"), ("b", .str "x")]
            ([⟨.ptr 1 .numShape, "a"⟩] : List ScanOption) emptyHeap)
    ∧ ∀ a, (∀ o ∈ ([⟨.ptr 1 .numShape, "a"⟩] : List ScanOption), o.dest.addrOf ≠ a) →
        (Scan { bytes := some "\x7b\"a\":1,\"b\":\"x\"\x7d", err := none }
          ((([⟨.ptr 1 .numShape, "a"⟩] ++ ⟨.ptr 2 .strShape, "missing"⟩
              :: [⟨.ptr 3 .anyShape, "b"⟩] : List ScanOption)).map toArg) emptyHeap).2 a
          = emptyHeap a :=
  scan_multi_field_failfast
    { bytes := some "\x7b\"a\":1,\"b\":\"x\"\x7d", err := none }
    [("a", .num "1"), ("b", .str "x")]
    [⟨.ptr 1 .numShape, "a"⟩] ⟨.ptr 2 .strShape, "missing"⟩ [⟨.ptr 3 .anyShape, "b"⟩]
    emptyHeap (HError.fieldNotFound "missing")
    rfl rfl (by decide) (by decide) (by decide) (by decide)

/-- Claim C7: encoding a string data input succeeds exactly when the
string is syntactically valid JSON; on success the encoded bytes are the
string itself, byte for byte; on failure the error is the
invalid-JSON-string error. -/
theorem marshal_string_input (s : String) :
    ((∃ b, marshalInput (.strV s) = .ok b) ↔ jsonValid s = true)
    ∧ (∀ b, marshalInput (.strV s) = .ok b → b = s)
    ∧ (jsonValid s = false → marshalInput (.strV s) = .error .invalidJSONString) := by
  cases h : jsonValid s with
  | true =>
    refine ⟨⟨fun _ => rfl, fun _ => ⟨s, by simp [marshalInput, h]⟩⟩, ?_, ?_⟩
    · intro b hb
      simp [marshalInput, h] at hb
      exact hb.symm
    · intro hf
      exact absurd hf (by decide)
  | false =>
    refine ⟨⟨?_, ?_⟩, ?_, ?_⟩
    · rintro ⟨b, hb⟩
      simp [marshalInput, h] at hb
    · intro ht
      exact absurd ht (by decide)
    · intro b hb
      simp [marshalInput, h] at hb
    · intro _
      simp [marshalInput, h]

/-- Witness for C7: a valid JSON string passes through verbatim and an
invalid one fails with the invalid-JSON-string error. -/
theorem marshal_string_input_witness :
    marshalInput (.strV "[1,2]") = .ok "[1,2]"
    ∧ marshalInput (.strV "ugh") = .error HError.invalidJSONString :=
  ⟨rfl, (marshal_string_input "ugh").2.2 rfl⟩

/-- Claim C8: every ordered-sequence data input — a slice or array
value, directly or through one level of pointer indirection — fails to
encode with the sequence-not-allowed error. -/
theorem marshal_sequence_rejected (xs ys : List JVal) :
    marshalInput (.sliceV xs) = .error HError.sequenceNotAllowed
    ∧ marshalInput (.arrayV ys) = .error HError.sequenceNotAllowed
    ∧ marshalInput (.ptrV (.sliceV xs)) = .error HError.sequenceNotAllowed
    ∧ marshalInput (.ptrV (.arrayV ys)) = .error HError.sequenceNotAllowed :=
  ⟨rfl, rfl, rfl, rfl⟩

/-- Claim C9: `Raw` is a pure read of the holder's stored state — it
returns exactly the stored (bytes, error) pair, so two successive calls
on the same holder necessarily return the same pair, with no decoding or
re-fetch. -/
theorem raw_returns_stored_pair (r : helixResponse) :
    Raw r = (r.bytes, r.err) :=
  rfl

/-- Claim C10: every holder `Query` constructs has exactly one side set:
a non-nil error comes with nil bytes, and a nil error occurs only for an
in-range status, with the bytes equal to the full response body. -/
theorem query_holder_invariant (opts : List (QueryOption → QueryOption))
    (oc : HTTPOutcome) :
    (∀ e, (Query opts oc).err = some e → (Query opts oc).bytes = none)
    ∧ ((Query opts oc).err = none →
        ∃ s b, oc = .response s b ∧ 200 ≤ s ∧ s < 300 ∧ (Query opts oc).bytes = some b) := by
  cases hm : marshalInput (applyOpts opts).data with
  | error e =>
    have hq : Query opts oc = { bytes := none, err := some (.marshalInputFailed e) } := by
      unfold Query
      rw [hm]
    rw [hq]
    exact ⟨fun _ _ => rfl, fun h => absurd h (by simp)⟩
  | ok j =>
    cases oc with
    | buildFail m =>
      have hq : Query opts (.buildFail m)
          = { bytes := none, err := some (.createRequestFailed m) } := by
        unfold Query
        rw [hm]
      rw [hq]
      exact ⟨fun _ _ => rfl, fun h => absurd h (by simp)⟩
    | sendFail m =>
      have hq : Query opts (.sendFail m)
          = { bytes := none, err := some (.sendRequestFailed m) } := by
        unfold Query
        rw [hm]
      rw [hq]
      exact ⟨fun _ _ => rfl, fun h => absurd h (by simp)⟩
    | response s b =>
      have hq : Query opts (.response s b)
          = if s < 200 ∨ 300 ≤ s then
              { bytes := none, err := some (.httpStatus s b) }
            else { bytes := some b, err := none } := by
        unfold Query
        rw [hm]
      by_cases hs : s < 200 ∨ 300 ≤ s
      · rw [hq, if_pos hs]
        exact ⟨fun _ _ => rfl, fun h => absurd h (by simp)⟩
      · rw [hq, if_neg hs]
        push_neg at hs
        exact ⟨fun e h => absurd h (by simp), fun _ => ⟨s, b, rfl, hs.1, hs.2, rfl⟩⟩

/-- Witness for C10: a concrete non-2xx invocation has an error and nil
bytes. -/
theorem query_holder_invariant_witness :
    (Query [] (.response 404 "no")).err = some (HError.httpStatus 404 "no")
    ∧ (Query [] (.response 404 "no")).bytes = none :=
  ⟨rfl, (query_holder_invariant [] (.response 404 "no")).1 (HError.httpStatus 404 "no") rfl⟩

end Helix
